import Mathlib

/-!
Verification of the CSS selector builder in `src/task/08-objects-tasks.js`.

The builder is the single `CSSSelector` class: its constructor receives the
fragment value, the full kind history (newest kind first, as built by the
getters via `[kind, ...this.type]`) and the previously rendered text
(`remainder`), renders the new fragment with its delimiter, and then runs
`checkUniqueness` followed by `checkOrder`, throwing an `Error` when a check
fails.  Throwing is modelled by `Except String`; the six fragment kinds, which
the source represents by the six literal strings put into `this.type`, are
modelled by the enumeration `Kind`.
-/

/-- The six fragment kinds stored in `this.type` (source: the string literals
passed to the `CSSSelector` constructor by the six getters and facades). -/
inductive Kind where
  | element
  | id
  | «class»
  | attr
  | pseudoClass
  | pseudoElement
deriving DecidableEq, Repr

/-- Index of a kind in the `order` array of `checkOrder`, which lists the six
kinds as element, id, class, attr, pseudoClass, pseudoElement. -/
def rank : Kind → Nat
  | .element => 0
  | .id => 1
  | .«class» => 2
  | .attr => 3
  | .pseudoClass => 4
  | .pseudoElement => 5

/-- The delimited form a fragment contributes to `this.value`, following the
`switch (type[0])` in the constructor. -/
def delimited : Kind → String → String
  | .element, v => v
  | .id, v => "#" ++ v
  | .«class», v => "." ++ v
  | .attr, v => "[" ++ v ++ "]"
  | .pseudoClass, v => ":" ++ v
  | .pseudoElement, v => "::" ++ v

/-- The `error` string thrown by `checkUniqueness` (note the source spells
"then", not "than"). -/
def uniquenessErrorMsg : String :=
  "Element, id and pseudo-element should not occur more then one time inside the selector"

/-- The `error` string thrown by `checkOrder`. -/
def orderErrorMsg : String :=
  "Selector parts should be arranged in the following order: element, id, class, attribute, pseudo-class, pseudo-element"

/-- Embedding of `checkUniqueness`: throws when `element`, `id` or `pseudoElement` occurs
more than once in the full history `this.type` (three `filter(...).length > 1`
tests, element first, then id, then pseudoElement). -/
def checkUniqueness (type : List Kind) : Except String Unit :=
  if (type.filter (fun x => x == Kind.element)).length > 1 then
    .error uniquenessErrorMsg
  else if (type.filter (fun x => x == Kind.id)).length > 1 then
    .error uniquenessErrorMsg
  else if (type.filter (fun x => x == Kind.pseudoElement)).length > 1 then
    .error uniquenessErrorMsg
  else
    .ok ()

/-- The `highestIndex` loop of `checkOrder`: starting from `0`, take each kind
of `this.type.slice(1)` and keep the larger of the accumulator and its index in
`order`. -/
def highestIndex (hist : List Kind) : Nat :=
  hist.foldl (fun acc t => if acc < rank t then rank t else acc) 0

/-- Embedding of `checkOrder`: throws when the index of the newly appended kind
`this.type[0]` is below the highest index among the older kinds
`this.type.slice(1)`.  The source never constructs an empty `this.type`; were
it empty, `order.indexOf(undefined) = -1 < 0` would throw, which the `[]`
branch mirrors. -/
def checkOrder (type : List Kind) : Except String Unit :=
  match type with
  | [] => .error orderErrorMsg
  | current :: rest =>
    if rank current < highestIndex rest then .error orderErrorMsg else .ok ()

/-- The observable state of a `CSSSelector` object: its `value` (rendered
text) and `type` (kind history, newest first) fields. -/
structure CSSSelector where
  value : String
  type : List Kind
deriving DecidableEq, Repr

/-- Embedding of `new CSSSelector(value, type, remainder)`: render the newest fragment onto
`remainder`, record the history, then run `checkUniqueness` and `checkOrder`
in that order; a thrown error means no object is returned. -/
def newCSSSelector (value : String) (type : List Kind) (remainder : String) :
    Except String CSSSelector :=
  let v : String :=
    remainder ++ (match type with
      | [] => ""
      | k :: _ => delimited k value)
  match checkUniqueness type with
  | .error e => .error e
  | .ok _ =>
    match checkOrder type with
    | .error e => .error e
    | .ok _ => .ok ⟨v, type⟩

/-- Method `stringify()` returns `this.value`. -/
def CSSSelector.stringify (s : CSSSelector) : String :=
  s.value

/-- The `element` getter: `new CSSSelector(value, ['element', ...this.type], this.value)`. -/
def CSSSelector.element (s : CSSSelector) (value : String) : Except String CSSSelector :=
  newCSSSelector value (Kind.element :: s.type) s.value

/-- The `id` getter. -/
def CSSSelector.id (s : CSSSelector) (value : String) : Except String CSSSelector :=
  newCSSSelector value (Kind.id :: s.type) s.value

/-- The `class` getter. -/
def CSSSelector.«class» (s : CSSSelector) (value : String) : Except String CSSSelector :=
  newCSSSelector value (Kind.«class» :: s.type) s.value

/-- The `attr` getter. -/
def CSSSelector.attr (s : CSSSelector) (value : String) : Except String CSSSelector :=
  newCSSSelector value (Kind.attr :: s.type) s.value

/-- The `pseudoClass` getter. -/
def CSSSelector.pseudoClass (s : CSSSelector) (value : String) : Except String CSSSelector :=
  newCSSSelector value (Kind.pseudoClass :: s.type) s.value

/-- The `pseudoElement` getter. -/
def CSSSelector.pseudoElement (s : CSSSelector) (value : String) : Except String CSSSelector :=
  newCSSSelector value (Kind.pseudoElement :: s.type) s.value

/-- Static method `CSSSelector.combine`: joins the two stringified selectors around the
combinator with single spaces and wraps the text in a fresh selector built as
`new CSSSelector` with an empty value, an element-only history, and the
joined text as remainder. -/
def CSSSelector.combine (selector1 : CSSSelector) (combinator : String)
    (selector2 : CSSSelector) : Except String CSSSelector :=
  newCSSSelector "" [Kind.element]
    (selector1.stringify ++ " " ++ combinator ++ " " ++ selector2.stringify)

/-- The `cssSelectorBuilder.element` facade: `new CSSSelector(value, ['element'])`. -/
def cssSelectorBuilder.element (value : String) : Except String CSSSelector :=
  newCSSSelector value [Kind.element] ""

/-- The `cssSelectorBuilder.id` facade. -/
def cssSelectorBuilder.id (value : String) : Except String CSSSelector :=
  newCSSSelector value [Kind.id] ""

/-- The `cssSelectorBuilder.class` facade. -/
def cssSelectorBuilder.«class» (value : String) : Except String CSSSelector :=
  newCSSSelector value [Kind.«class»] ""

/-- The `cssSelectorBuilder.attr` facade. -/
def cssSelectorBuilder.attr (value : String) : Except String CSSSelector :=
  newCSSSelector value [Kind.attr] ""

/-- The `cssSelectorBuilder.pseudoClass` facade. -/
def cssSelectorBuilder.pseudoClass (value : String) : Except String CSSSelector :=
  newCSSSelector value [Kind.pseudoClass] ""

/-- The `cssSelectorBuilder.pseudoElement` facade. -/
def cssSelectorBuilder.pseudoElement (value : String) : Except String CSSSelector :=
  newCSSSelector value [Kind.pseudoElement] ""

/-- The `cssSelectorBuilder.combine` facade. -/
def cssSelectorBuilder.combine (selector1 : CSSSelector) (combinator : String)
    (selector2 : CSSSelector) : Except String CSSSelector :=
  CSSSelector.combine selector1 combinator selector2

/-- Dispatch an append of kind `k` to the corresponding instance getter; used
to quantify over the six append operations. -/
def appendKind (k : Kind) (s : CSSSelector) (v : String) : Except String CSSSelector :=
  match k with
  | .element => s.element v
  | .id => s.id v
  | .«class» => s.«class» v
  | .attr => s.attr v
  | .pseudoClass => s.pseudoClass v
  | .pseudoElement => s.pseudoElement v

/-- Dispatch a first fragment to the corresponding `cssSelectorBuilder` facade. -/
def facadeKind (k : Kind) (v : String) : Except String CSSSelector :=
  match k with
  | .element => cssSelectorBuilder.element v
  | .id => cssSelectorBuilder.id v
  | .«class» => cssSelectorBuilder.«class» v
  | .attr => cssSelectorBuilder.attr v
  | .pseudoClass => cssSelectorBuilder.pseudoClass v
  | .pseudoElement => cssSelectorBuilder.pseudoElement v

/-- State-explicit form of an append call on a receiver: the getter reads
`this.value` and `this.type` and the constructor assigns only to the fields of
the freshly allocated object, so the receiver's state after the call is
returned alongside the result. -/
def appendStateful (k : Kind) (s : CSSSelector) (v : String) :
    CSSSelector × Except String CSSSelector :=
  (s, appendKind k s v)

/-- State-explicit form of a `stringify()` call: the method reads `this.value`
and assigns nothing, so the receiver's state after the call is returned
alongside the result. -/
def stringifyStateful (s : CSSSelector) : CSSSelector × String :=
  (s, s.stringify)

/-- Run a list of appends (kind and value, oldest first) starting from `s`;
the first thrown error aborts the chain. -/
def buildChain (s : CSSSelector) : List (Kind × String) → Except String CSSSelector
  | [] => .ok s
  | (k, v) :: rest =>
    match appendKind k s v with
    | .error e => .error e
    | .ok s' => buildChain s' rest

/-- Build a selector from a whole fragment sequence.  Starting from the empty
state `⟨"", []⟩` makes the first append coincide with the corresponding
`cssSelectorBuilder` facade (see `appendKind_empty_eq_facade`). -/
def buildFrags (fs : List (Kind × String)) : Except String CSSSelector :=
  buildChain ⟨"", []⟩ fs

/-- Concatenation of the delimited fragment texts in the order given. -/
def renderAppendOrder : List (Kind × String) → String
  | [] => ""
  | p :: rest => delimited p.1 p.2 ++ renderAppendOrder rest

/-- The fragments of one kind, in the order they occur. -/
def byKind (fs : List (Kind × String)) (c : Kind) : List (Kind × String) :=
  fs.filter (fun p => p.1 == c)

/-- The fragments regrouped into precedence order: element, id, class, attr,
pseudo-class, pseudo-element, each group keeping its original order. -/
def precedenceList (fs : List (Kind × String)) : List (Kind × String) :=
  byKind fs Kind.element ++ byKind fs Kind.id ++ byKind fs Kind.«class» ++
    byKind fs Kind.attr ++ byKind fs Kind.pseudoClass ++ byKind fs Kind.pseudoElement

/-- The spec's rendering: concatenation of the delimited fragment texts in
precedence order, fragments of the same kind in append order. -/
def renderPrecedenceOrder (fs : List (Kind × String)) : String :=
  renderAppendOrder (precedenceList fs)

/-- The spec's `maxRank`: maximum rank of the kinds of the history, `0` when
the history is empty. -/
def maxRank (hist : List Kind) : Nat :=
  hist.foldr (fun t m => max (rank t) m) 0

/-- The selector values reachable through the public API: the six facades, the
six instance appends, and `combine`. -/
inductive Reachable : CSSSelector → Prop where
  | facade (k : Kind) (v : String) (s : CSSSelector) :
      facadeKind k v = .ok s → Reachable s
  | append (k : Kind) (v : String) (s s' : CSSSelector) :
      Reachable s → appendKind k s v = .ok s' → Reachable s'
  | combined (s1 : CSSSelector) (c : String) (s2 : CSSSelector) (s : CSSSelector) :
      Reachable s1 → Reachable s2 → CSSSelector.combine s1 c s2 = .ok s → Reachable s

/-! ### Basic lemmas about the embedding -/

theorem appendKind_eq (k : Kind) (s : CSSSelector) (v : String) :
    appendKind k s v = newCSSSelector v (k :: s.type) s.value := by
  cases k <;> rfl

theorem facadeKind_eq (k : Kind) (v : String) :
    facadeKind k v = newCSSSelector v [k] "" := by
  cases k <;> rfl

theorem appendKind_empty_eq_facade (k : Kind) (v : String) :
    appendKind k ⟨"", []⟩ v = facadeKind k v := by
  cases k <;> rfl

theorem length_filter_eq_count (t : List Kind) (c : Kind) :
    (t.filter (fun x => x == c)).length = t.count c := by
  rw [List.count_eq_countP, List.countP_eq_length_filter]

theorem checkUniqueness_eq_ok_iff (t : List Kind) :
    checkUniqueness t = .ok () ↔
      t.count Kind.element ≤ 1 ∧ t.count Kind.id ≤ 1 ∧ t.count Kind.pseudoElement ≤ 1 := by
  simp only [checkUniqueness, length_filter_eq_count]
  split_ifs with h1 h2 h3 <;> simp <;> omega

theorem checkUniqueness_eq_error_iff (t : List Kind) :
    checkUniqueness t = .error uniquenessErrorMsg ↔
      1 < t.count Kind.element ∨ 1 < t.count Kind.id ∨ 1 < t.count Kind.pseudoElement := by
  simp only [checkUniqueness, length_filter_eq_count]
  split_ifs with h1 h2 h3 <;> simp <;> omega

theorem highestIndex_fold (hist : List Kind) (a : Nat) :
    hist.foldl (fun acc t => if acc < rank t then rank t else acc) a = max a (maxRank hist) := by
  induction hist generalizing a with
  | nil => simp [maxRank]
  | cons t l ih =>
    have hm : maxRank (t :: l) = max (rank t) (maxRank l) := rfl
    have hite : (if a < rank t then rank t else a) = max a (rank t) := by
      rcases Nat.lt_or_ge a (rank t) with h | h
      · simp [h, Nat.max_eq_right (Nat.le_of_lt h)]
      · simp [Nat.not_lt.mpr h, Nat.max_eq_left h]
    simp only [List.foldl_cons, hm]
    rw [ih, hite, Nat.max_assoc]

theorem highestIndex_eq_maxRank (hist : List Kind) : highestIndex hist = maxRank hist := by
  rw [highestIndex, highestIndex_fold]
  simp

theorem maxRank_le_iff (hist : List Kind) (n : Nat) :
    maxRank hist ≤ n ↔ ∀ x ∈ hist, rank x ≤ n := by
  induction hist with
  | nil => simp [maxRank]
  | cons t l ih =>
    have hm : maxRank (t :: l) = max (rank t) (maxRank l) := rfl
    rw [hm, Nat.max_le, ih]
    simp

theorem checkOrder_cons (k : Kind) (hist : List Kind) :
    checkOrder (k :: hist) =
      if rank k < maxRank hist then .error orderErrorMsg else .ok () := by
  simp [checkOrder, highestIndex_eq_maxRank]

theorem newCSSSelector_cons_ok (v : String) (k : Kind) (hist : List Kind) (r : String)
    (h1 : checkUniqueness (k :: hist) = .ok ()) (h2 : checkOrder (k :: hist) = .ok ()) :
    newCSSSelector v (k :: hist) r = .ok ⟨r ++ delimited k v, k :: hist⟩ := by
  simp [newCSSSelector, h1, h2]

theorem newCSSSelector_error_uniq {t : List Kind} {e : String} (v r : String)
    (h : checkUniqueness t = .error e) : newCSSSelector v t r = .error e := by
  simp [newCSSSelector, h]

theorem newCSSSelector_error_order {t : List Kind} {e : String} (v r : String)
    (h1 : checkUniqueness t = .ok ()) (h2 : checkOrder t = .error e) :
    newCSSSelector v t r = .error e := by
  simp [newCSSSelector, h1, h2]

theorem newCSSSelector_cons_ok_inv {v : String} {k : Kind} {hist : List Kind} {r : String}
    {s : CSSSelector} (h : newCSSSelector v (k :: hist) r = .ok s) :
    s = ⟨r ++ delimited k v, k :: hist⟩ ∧ checkUniqueness (k :: hist) = .ok () ∧
      checkOrder (k :: hist) = .ok () := by
  cases hu : checkUniqueness (k :: hist) with
  | error e =>
    rw [newCSSSelector_error_uniq v r hu] at h
    exact absurd h (by simp)
  | ok u =>
    cases u
    cases ho : checkOrder (k :: hist) with
    | error e =>
      rw [newCSSSelector_error_order v r hu ho] at h
      exact absurd h (by simp)
    | ok u' =>
      cases u'
      rw [newCSSSelector_cons_ok v k hist r hu ho] at h
      simp only [Except.ok.injEq] at h
      exact ⟨h.symm, rfl, rfl⟩

/-- An append of an already-present `element`, `id` or `pseudoElement` kind
fails in `checkUniqueness` with its error message, whatever else the history
holds. -/
theorem appendKind_dup_error (k : Kind) (s : CSSSelector) (v : String)
    (hk : k = Kind.element ∨ k = Kind.id ∨ k = Kind.pseudoElement)
    (hmem : k ∈ s.type) :
    appendKind k s v = .error uniquenessErrorMsg := by
  rw [appendKind_eq]
  apply newCSSSelector_error_uniq
  rw [checkUniqueness_eq_error_iff]
  have hpos : 0 < s.type.count k := List.count_pos_iff.mpr hmem
  have hc : 1 < (k :: s.type).count k := by
    rw [List.count_cons]
    simp only [beq_self_eq_true, if_pos]
    omega
  rcases hk with rfl | rfl | rfl
  · exact Or.inl hc
  · exact Or.inr (Or.inl hc)
  · exact Or.inr (Or.inr hc)

/-- C1 (amended): appending a fragment of kind `element`, `id` or
`pseudoElement` onto a selector whose kind history already contains that kind
fails with the duplicate-fragment error, whose message is exactly
"Element, id and pseudo-element should not occur more then one time inside the
selector" (the source spells "then", not "than" as the claim states);
no new selector is returned. -/
theorem append_duplicate_kind_fails (k : Kind) (s : CSSSelector) (v : String)
    (hk : k = Kind.element ∨ k = Kind.id ∨ k = Kind.pseudoElement)
    (hmem : k ∈ s.type) :
    appendKind k s v = .error uniquenessErrorMsg :=
  appendKind_dup_error k s v hk hmem

/-- C1 (counterexample): appending a second element to the selector
`⟨"a", [element]⟩` raises the code's message, which differs from the message
quoted in the claim ("more than one time"). -/
theorem append_duplicate_message_counterexample :
    CSSSelector.element ⟨"a", [Kind.element]⟩ "b" =
      .error "Element, id and pseudo-element should not occur more then one time inside the selector" ∧
    uniquenessErrorMsg ≠
      "Element, id and pseudo-element should not occur more than one time inside the selector" :=
  ⟨rfl, by decide⟩

/-- C1 (witness): the amended theorem at the concrete duplicate append of
`element` onto `⟨"a", [element]⟩`. -/
theorem append_duplicate_kind_fails_witness :
    (Kind.element = Kind.element ∨ Kind.element = Kind.id ∨
        Kind.element = Kind.pseudoElement) ∧
    Kind.element ∈ (⟨"a", [Kind.element]⟩ : CSSSelector).type ∧
    appendKind Kind.element ⟨"a", [Kind.element]⟩ "b" = .error uniquenessErrorMsg :=
  ⟨Or.inl rfl, by decide,
    append_duplicate_kind_fails Kind.element ⟨"a", [Kind.element]⟩ "b" (Or.inl rfl) (by decide)⟩

/-- C2: when the uniqueness check passes, an append fails with the order
error message exactly when the rank of the new kind is strictly below the
maximum rank of the prior history (`0` for an empty history); at equal or
larger rank the ordering check passes. -/
theorem append_order_violation_iff (k : Kind) (s : CSSSelector) (v : String)
    (hu : checkUniqueness (k :: s.type) = .ok ()) :
    appendKind k s v = .error orderErrorMsg ↔ rank k < maxRank s.type := by
  rw [appendKind_eq]
  constructor
  · intro h
    by_contra hlt
    have ho : checkOrder (k :: s.type) = .ok () := by
      rw [checkOrder_cons, if_neg hlt]
    rw [newCSSSelector_cons_ok v k s.type s.value hu ho] at h
    exact absurd h (by simp)
  · intro h
    have ho : checkOrder (k :: s.type) = .error orderErrorMsg := by
      rw [checkOrder_cons, if_pos h]
    exact newCSSSelector_error_order v s.value hu ho

/-- C2 (witness): appending `id` after `class` violates the order
(rank 1 < rank 2) while the uniqueness check passes. -/
theorem append_order_violation_iff_witness :
    checkUniqueness (Kind.id :: (⟨".c", [Kind.«class»]⟩ : CSSSelector).type) = .ok () ∧
    (appendKind Kind.id ⟨".c", [Kind.«class»]⟩ "main" = .error orderErrorMsg ↔
      rank Kind.id < maxRank (⟨".c", [Kind.«class»]⟩ : CSSSelector).type) :=
  ⟨rfl, append_order_violation_iff Kind.id ⟨".c", [Kind.«class»]⟩ "main" rfl⟩

/-- C4: `combine` accepts any combinator string with no validation, always
succeeds, and the result stringifies to
`left.stringify() + " " + combinator + " " + right.stringify()`, for arbitrary
left and right selector values (in particular nested combined ones). -/
theorem combine_accepts_any_combinator (s1 : CSSSelector) (c : String) (s2 : CSSSelector) :
    (CSSSelector.combine s1 c s2).map CSSSelector.stringify =
      .ok (s1.stringify ++ " " ++ c ++ " " ++ s2.stringify) := by
  have h : CSSSelector.combine s1 c s2 =
      .ok ⟨s1.stringify ++ " " ++ c ++ " " ++ s2.stringify ++ "", [Kind.element]⟩ := rfl
  rw [h]
  simp [Except.map, CSSSelector.stringify, String.append_empty]

/-- C5: when an append violates both uniqueness (the kind is `element`,
`id` or `pseudoElement` and already occurs) and ordering (its rank is below
the history's maximum), the duplicate-fragment error is raised, not the
order error: the uniqueness check runs first. -/
theorem uniqueness_fires_before_order (k : Kind) (s : CSSSelector) (v : String)
    (hk : k = Kind.element ∨ k = Kind.id ∨ k = Kind.pseudoElement)
    (hmem : k ∈ s.type) (hord : rank k < maxRank s.type) :
    appendKind k s v = .error uniquenessErrorMsg ∧
      appendKind k s v ≠ .error orderErrorMsg := by
  have h := appendKind_dup_error k s v hk hmem
  refine ⟨h, ?_⟩
  rw [h]
  intro hcontra
  simp only [Except.error.injEq] at hcontra
  exact absurd hcontra (by decide)

/-- C5 (witness): appending `element` onto `⟨".ca", [class, element]⟩`
violates both checks, and the duplicate error is the one raised. -/
theorem uniqueness_fires_before_order_witness :
    Kind.element ∈ (⟨".ca", [Kind.«class», Kind.element]⟩ : CSSSelector).type ∧
    rank Kind.element < maxRank (⟨".ca", [Kind.«class», Kind.element]⟩ : CSSSelector).type ∧
    (appendKind Kind.element ⟨".ca", [Kind.«class», Kind.element]⟩ "b" =
        .error uniquenessErrorMsg ∧
      appendKind Kind.element ⟨".ca", [Kind.«class», Kind.element]⟩ "b" ≠
        .error orderErrorMsg) :=
  ⟨by decide, by decide,
    uniqueness_fires_before_order Kind.element ⟨".ca", [Kind.«class», Kind.element]⟩ "b"
      (Or.inl rfl) (by decide) (by decide)⟩

/-- C6: an append call leaves the receiver untouched whether it succeeds
or fails: its state, its `stringify()` output and its kind history are those
it had before the call, so it can be reused as a shared prefix. -/
theorem append_never_mutates_receiver (k : Kind) (s : CSSSelector) (v : String) :
    (appendStateful k s v).1 = s ∧
      (appendStateful k s v).1.stringify = s.stringify ∧
      (appendStateful k s v).1.type = s.type :=
  ⟨rfl, rfl, rfl⟩

/-- C7: the two reference chains evaluate exactly as specified. -/
theorem reference_chains_evaluate :
    ((((cssSelectorBuilder.element "a").bind (fun s => s.id "main")).bind
          (fun s => s.«class» "container")).bind (fun s => s.«class» "editable")).map
        CSSSelector.stringify = .ok "a#main.container.editable" ∧
      (((cssSelectorBuilder.element "a").bind (fun s => s.attr "href$=\".png\"")).bind
          (fun s => s.pseudoClass "focus")).map CSSSelector.stringify
        = .ok "a[href$=\".png\"]:focus" :=
  ⟨rfl, rfl⟩

/-- C9: `stringify()` does not modify the selector, and calling it twice
in succession yields identical strings. -/
theorem stringify_idempotent (s : CSSSelector) :
    (stringifyStateful s).1 = s ∧
      (stringifyStateful ((stringifyStateful s).1)).2 = (stringifyStateful s).2 :=
  ⟨rfl, rfl⟩

/-- C8: every selector reachable through the public API (facades, instance
appends, `combine`) has at most one `element`, one `id` and one
`pseudoElement` in its kind history. -/
theorem reachable_uniqueness_invariant (s : CSSSelector) (h : Reachable s) :
    s.type.count Kind.element ≤ 1 ∧ s.type.count Kind.id ≤ 1 ∧
      s.type.count Kind.pseudoElement ≤ 1 := by
  induction h with
  | facade k v s hf =>
    rw [facadeKind_eq] at hf
    obtain ⟨rfl, -, -⟩ := newCSSSelector_cons_ok_inv hf
    refine ⟨?_, ?_, ?_⟩ <;> exact le_trans (List.count_le_length _ _) (by simp)
  | append k v s s' hs happ ih =>
    rw [appendKind_eq] at happ
    obtain ⟨rfl, hu, -⟩ := newCSSSelector_cons_ok_inv happ
    exact (checkUniqueness_eq_ok_iff _).mp hu
  | combined s1 cb s2 s h1 h2 hc ih1 ih2 =>
    rw [CSSSelector.combine] at hc
    obtain ⟨rfl, -, -⟩ := newCSSSelector_cons_ok_inv hc
    refine ⟨?_, ?_, ?_⟩ <;> exact le_trans (List.count_le_length _ _) (by simp)

/-- C8 (witness): the invariant at the reachable selector produced by
`cssSelectorBuilder.element('a')`. -/
theorem reachable_uniqueness_invariant_witness :
    (⟨"a", [Kind.element]⟩ : CSSSelector).type.count Kind.element ≤ 1 ∧
      (⟨"a", [Kind.element]⟩ : CSSSelector).type.count Kind.id ≤ 1 ∧
      (⟨"a", [Kind.element]⟩ : CSSSelector).type.count Kind.pseudoElement ≤ 1 :=
  reachable_uniqueness_invariant ⟨"a", [Kind.element]⟩
    (Reachable.facade Kind.element "a" ⟨"a", [Kind.element]⟩ rfl)

/-- C10: a selector returned by `combine` carries the kind history
`[element]`; appending `element` to it fails with the duplicate-fragment
error, while the five other appends succeed and append the delimited fragment
to its rendered text. -/
theorem combined_selector_appendable (s1 : CSSSelector) (cb : String) (s2 : CSSSelector)
    (c : CSSSelector) (h : CSSSelector.combine s1 cb s2 = .ok c) (v : String) :
    c.type = [Kind.element] ∧
    c.element v = .error uniquenessErrorMsg ∧
    (c.id v).map CSSSelector.stringify = .ok (c.stringify ++ "#" ++ v) ∧
    (c.«class» v).map CSSSelector.stringify = .ok (c.stringify ++ "." ++ v) ∧
    (c.attr v).map CSSSelector.stringify = .ok (c.stringify ++ "[" ++ v ++ "]") ∧
    (c.pseudoClass v).map CSSSelector.stringify = .ok (c.stringify ++ ":" ++ v) ∧
    (c.pseudoElement v).map CSSSelector.stringify = .ok (c.stringify ++ "::" ++ v) := by
  rw [CSSSelector.combine] at h
  obtain ⟨hc, -, -⟩ := newCSSSelector_cons_ok_inv h
  have ht : c.type = [Kind.element] := by rw [hc]
  refine ⟨ht, ?_, ?_, ?_, ?_, ?_, ?_⟩
  · rw [CSSSelector.element, ht]
    exact newCSSSelector_error_uniq v c.value rfl
  · rw [CSSSelector.id, ht, newCSSSelector_cons_ok v Kind.id [Kind.element] c.value rfl rfl]
    simp [Except.map, CSSSelector.stringify, delimited, String.append_assoc]
  · rw [CSSSelector.«class», ht,
      newCSSSelector_cons_ok v Kind.«class» [Kind.element] c.value rfl rfl]
    simp [Except.map, CSSSelector.stringify, delimited, String.append_assoc]
  · rw [CSSSelector.attr, ht, newCSSSelector_cons_ok v Kind.attr [Kind.element] c.value rfl rfl]
    simp [Except.map, CSSSelector.stringify, delimited, String.append_assoc]
  · rw [CSSSelector.pseudoClass, ht,
      newCSSSelector_cons_ok v Kind.pseudoClass [Kind.element] c.value rfl rfl]
    simp [Except.map, CSSSelector.stringify, delimited, String.append_assoc]
  · rw [CSSSelector.pseudoElement, ht,
      newCSSSelector_cons_ok v Kind.pseudoElement [Kind.element] c.value rfl rfl]
    simp [Except.map, CSSSelector.stringify, delimited, String.append_assoc]

/-- C10 (witness): the combined selector `"a + b"` built from two element
selectors, extended with each kind of fragment. -/
theorem combined_selector_appendable_witness :
    CSSSelector.combine ⟨"a", [Kind.element]⟩ "+" ⟨"b", [Kind.element]⟩ =
      .ok ⟨"a + b", [Kind.element]⟩ ∧
    ((⟨"a + b", [Kind.element]⟩ : CSSSelector).type = [Kind.element] ∧
      (⟨"a + b", [Kind.element]⟩ : CSSSelector).element "x" = .error uniquenessErrorMsg ∧
      ((⟨"a + b", [Kind.element]⟩ : CSSSelector).id "x").map CSSSelector.stringify =
        .ok ((⟨"a + b", [Kind.element]⟩ : CSSSelector).stringify ++ "#" ++ "x") ∧
      ((⟨"a + b", [Kind.element]⟩ : CSSSelector).«class» "x").map CSSSelector.stringify =
        .ok ((⟨"a + b", [Kind.element]⟩ : CSSSelector).stringify ++ "." ++ "x") ∧
      ((⟨"a + b", [Kind.element]⟩ : CSSSelector).attr "x").map CSSSelector.stringify =
        .ok ((⟨"a + b", [Kind.element]⟩ : CSSSelector).stringify ++ "[" ++ "x" ++ "]") ∧
      ((⟨"a + b", [Kind.element]⟩ : CSSSelector).pseudoClass "x").map CSSSelector.stringify =
        .ok ((⟨"a + b", [Kind.element]⟩ : CSSSelector).stringify ++ ":" ++ "x") ∧
      ((⟨"a + b", [Kind.element]⟩ : CSSSelector).pseudoElement "x").map CSSSelector.stringify =
        .ok ((⟨"a + b", [Kind.element]⟩ : CSSSelector).stringify ++ "::" ++ "x")) :=
  ⟨rfl, combined_selector_appendable ⟨"a", [Kind.element]⟩ "+" ⟨"b", [Kind.element]⟩
    ⟨"a + b", [Kind.element]⟩ rfl "x"⟩

theorem renderAppendOrder_append (a b : List (Kind × String)) :
    renderAppendOrder (a ++ b) = renderAppendOrder a ++ renderAppendOrder b := by
  induction a with
  | nil => simp [renderAppendOrder, String.empty_append]
  | cons p rest ih => simp [renderAppendOrder, ih, String.append_assoc]

theorem byKind_cons (p : Kind × String) (fs : List (Kind × String)) (c : Kind) :
    byKind (p :: fs) c = if p.1 = c then p :: byKind fs c else byKind fs c := by
  simp only [byKind, List.filter_cons, beq_iff_eq]

theorem byKind_eq_nil_of_lt {k : Kind} {fs : List (Kind × String)}
    (h : ∀ q ∈ fs, rank k ≤ rank q.1) {c : Kind} (hlt : rank c < rank k) :
    byKind fs c = [] := by
  rw [byKind, List.filter_eq_nil_iff]
  intro q hq
  simp only [beq_iff_eq]
  intro hqc
  have hk := h q hq
  rw [hqc] at hk
  omega

theorem precedenceList_sorted (fs : List (Kind × String))
    (h : List.Pairwise (fun p q => rank p.1 ≤ rank q.1) fs) :
    precedenceList fs = fs := by
  induction fs with
  | nil => rfl
  | cons p rest ih =>
    obtain ⟨hp, hrest⟩ := List.pairwise_cons.mp h
    have hre := ih hrest
    obtain ⟨k, v⟩ := p
    cases k with
    | element =>
      simp only [precedenceList, List.append_assoc] at hre ⊢
      simp [byKind_cons, hre]
    | id =>
      have hp' : ∀ q ∈ rest, rank Kind.id ≤ rank q.1 := hp
      have e0 : byKind rest Kind.element = [] := byKind_eq_nil_of_lt hp' (by decide)
      simp only [precedenceList, List.append_assoc] at hre ⊢
      rw [e0] at hre
      simp only [List.nil_append] at hre
      simp [byKind_cons, e0, hre]
    | «class» =>
      have hp' : ∀ q ∈ rest, rank Kind.«class» ≤ rank q.1 := hp
      have e0 : byKind rest Kind.element = [] := byKind_eq_nil_of_lt hp' (by decide)
      have e1 : byKind rest Kind.id = [] := byKind_eq_nil_of_lt hp' (by decide)
      simp only [precedenceList, List.append_assoc] at hre ⊢
      rw [e0, e1] at hre
      simp only [List.nil_append] at hre
      simp [byKind_cons, e0, e1, hre]
    | attr =>
      have hp' : ∀ q ∈ rest, rank Kind.attr ≤ rank q.1 := hp
      have e0 : byKind rest Kind.element = [] := byKind_eq_nil_of_lt hp' (by decide)
      have e1 : byKind rest Kind.id = [] := byKind_eq_nil_of_lt hp' (by decide)
      have e2 : byKind rest Kind.«class» = [] := byKind_eq_nil_of_lt hp' (by decide)
      simp only [precedenceList, List.append_assoc] at hre ⊢
      rw [e0, e1, e2] at hre
      simp only [List.nil_append] at hre
      simp [byKind_cons, e0, e1, e2, hre]
    | pseudoClass =>
      have hp' : ∀ q ∈ rest, rank Kind.pseudoClass ≤ rank q.1 := hp
      have e0 : byKind rest Kind.element = [] := byKind_eq_nil_of_lt hp' (by decide)
      have e1 : byKind rest Kind.id = [] := byKind_eq_nil_of_lt hp' (by decide)
      have e2 : byKind rest Kind.«class» = [] := byKind_eq_nil_of_lt hp' (by decide)
      have e3 : byKind rest Kind.attr = [] := byKind_eq_nil_of_lt hp' (by decide)
      simp only [precedenceList, List.append_assoc] at hre ⊢
      rw [e0, e1, e2, e3] at hre
      simp only [List.nil_append] at hre
      simp [byKind_cons, e0, e1, e2, e3, hre]
    | pseudoElement =>
      have hp' : ∀ q ∈ rest, rank Kind.pseudoElement ≤ rank q.1 := hp
      have e0 : byKind rest Kind.element = [] := byKind_eq_nil_of_lt hp' (by decide)
      have e1 : byKind rest Kind.id = [] := byKind_eq_nil_of_lt hp' (by decide)
      have e2 : byKind rest Kind.«class» = [] := byKind_eq_nil_of_lt hp' (by decide)
      have e3 : byKind rest Kind.attr = [] := byKind_eq_nil_of_lt hp' (by decide)
      have e4 : byKind rest Kind.pseudoClass = [] := byKind_eq_nil_of_lt hp' (by decide)
      simp only [precedenceList, List.append_assoc] at hre ⊢
      rw [e0, e1, e2, e3, e4] at hre
      simp only [List.nil_append] at hre
      simp [byKind_cons, e0, e1, e2, e3, e4, hre]

theorem buildChain_ok (rest : List (Kind × String)) :
    ∀ done : List (Kind × String),
      ((done ++ rest).map Prod.fst).count Kind.element ≤ 1 →
      ((done ++ rest).map Prod.fst).count Kind.id ≤ 1 →
      ((done ++ rest).map Prod.fst).count Kind.pseudoElement ≤ 1 →
      List.Pairwise (fun p q => rank p.1 ≤ rank q.1) (done ++ rest) →
      buildChain ⟨renderAppendOrder done, (done.map Prod.fst).reverse⟩ rest
        = .ok ⟨renderAppendOrder (done ++ rest), ((done ++ rest).map Prod.fst).reverse⟩ := by
  induction rest with
  | nil =>
    intro done h1 h2 h3 h4
    simp [buildChain]
  | cons pr rest ih =>
    obtain ⟨k, v⟩ := pr
    intro done h1 h2 h3 h4
    have hcount : ∀ c : Kind, (k :: (done.map Prod.fst).reverse).count c
        ≤ ((done ++ (k, v) :: rest).map Prod.fst).count c := by
      intro c
      have hrev : (k :: (done.map Prod.fst).reverse)
          = ((done.map Prod.fst) ++ [k]).reverse := by
        simp
      rw [hrev, List.count_reverse]
      apply List.Sublist.count_le
      rw [List.map_append, List.map_cons]
      exact List.Sublist.append_left (List.Sublist.cons₂ k (List.nil_sublist _)) _
    have hu : checkUniqueness (k :: (done.map Prod.fst).reverse) = .ok () := by
      rw [checkUniqueness_eq_ok_iff]
      exact ⟨le_trans (hcount Kind.element) h1, le_trans (hcount Kind.id) h2,
        le_trans (hcount Kind.pseudoElement) h3⟩
    have ho : checkOrder (k :: (done.map Prod.fst).reverse) = .ok () := by
      rw [checkOrder_cons]
      have hmax : maxRank ((done.map Prod.fst).reverse) ≤ rank k := by
        rw [maxRank_le_iff]
        intro x hx
        rw [List.mem_reverse] at hx
        obtain ⟨p, hpmem, rfl⟩ := List.mem_map.mp hx
        exact (List.pairwise_append.mp h4).2.2 p hpmem (k, v) (List.mem_cons_self _ _)
      rw [if_neg (by omega)]
    have hstep : appendKind k ⟨renderAppendOrder done, (done.map Prod.fst).reverse⟩ v
        = .ok ⟨renderAppendOrder done ++ delimited k v, k :: (done.map Prod.fst).reverse⟩ := by
      rw [appendKind_eq]
      exact newCSSSelector_cons_ok v k _ _ hu ho
    have hfix : (done ++ [(k, v)]) ++ rest = done ++ (k, v) :: rest := by simp
    have IH := ih (done ++ [(k, v)]) (by rw [hfix]; exact h1) (by rw [hfix]; exact h2)
      (by rw [hfix]; exact h3) (by rw [hfix]; exact h4)
    have hval : renderAppendOrder (done ++ [(k, v)])
        = renderAppendOrder done ++ delimited k v := by
      rw [renderAppendOrder_append]
      simp [renderAppendOrder, String.append_empty]
    have htyp : ((done ++ [(k, v)]).map Prod.fst).reverse
        = k :: (done.map Prod.fst).reverse := by
      simp
    rw [hval, htyp, hfix] at IH
    simp only [buildChain]
    rw [hstep]
    exact IH

/-- C3: for every fragment sequence whose kinds respect the precedence
order (each new rank at least every prior rank) with at most one `element`,
`id` and `pseudoElement`, the build succeeds and `stringify()` returns the
concatenation of the delimited fragments in precedence order, same-kind
fragments in append order. -/
theorem stringify_precedence_order (fs : List (Kind × String))
    (hsorted : List.Pairwise (fun p q => rank p.1 ≤ rank q.1) fs)
    (h1 : (fs.map Prod.fst).count Kind.element ≤ 1)
    (h2 : (fs.map Prod.fst).count Kind.id ≤ 1)
    (h3 : (fs.map Prod.fst).count Kind.pseudoElement ≤ 1) :
    (buildFrags fs).map CSSSelector.stringify = .ok (renderPrecedenceOrder fs) := by
  have h : buildChain ⟨"", []⟩ fs
      = .ok ⟨renderAppendOrder fs, (fs.map Prod.fst).reverse⟩ :=
    buildChain_ok fs [] h1 h2 h3 hsorted
  rw [buildFrags, h, renderPrecedenceOrder, precedenceList_sorted fs hsorted]
  simp [Except.map, CSSSelector.stringify]

/-- C3 (witness): the fragment sequence of
`element('a').id('main').class('container').class('editable')`. -/
theorem stringify_precedence_order_witness :
    List.Pairwise (fun p q => rank p.1 ≤ rank q.1)
        [(Kind.element, "a"), (Kind.id, "main"),
          (Kind.«class», "container"), (Kind.«class», "editable")] ∧
      (buildFrags [(Kind.element, "a"), (Kind.id, "main"),
            (Kind.«class», "container"), (Kind.«class», "editable")]).map
          CSSSelector.stringify
        = .ok (renderPrecedenceOrder [(Kind.element, "a"), (Kind.id, "main"),
            (Kind.«class», "container"), (Kind.«class», "editable")]) :=
  ⟨by decide,
    stringify_precedence_order
      [(Kind.element, "a"), (Kind.id, "main"),
        (Kind.«class», "container"), (Kind.«class», "editable")]
      (by decide) (by decide) (by decide) (by decide)⟩
